import Mathlib

/-!
Shallow embedding of the ArucasJsonToMd documentation generator
(src/main.rs and src/doc_parser.rs).

Strings are modelled as lists of characters (`Str`); Rust's `String`
pushes become list appends.  A Rust `panic!` (every `.unwrap()` /
`.expect(..)` failure) is modelled as `Option.none` / a dedicated
`panic` constructor, so every renderer that can abort the process
returns an `Option`.  JSON values are modelled by the inductive `Json`,
and the serde-derived deserializers are modelled field by field:
a missing or wrong-shaped required field is a deserialization error
(`none`), a missing or `null` optional field maps to `Option.none`
inside the typed record.
-/

namespace ArucasJsonToMd

abbrev Str : Type := List Char

def lit (s : String) : Str := s.data

/-- Rust struct `Param` (doc_parser.rs lines 49-55); all fields required. -/
structure Param where
  name : Str
  type_name : Str
  desc : Str
deriving DecidableEq, Repr

/-- Rust struct `Return` (doc_parser.rs lines 57-62). -/
structure Return where
  type_name : Str
  desc : Str
deriving DecidableEq, Repr

/-- Rust struct `Function` (doc_parser.rs lines 21-30). -/
structure Function where
  name : Str
  deprecated : Option (List Str)
  desc : Option (List Str)
  params : Option (List Param)
  returns : Option Return
  throws : Option (List Str)
  examples : Option (List Str)
deriving DecidableEq, Repr

/-- Rust struct `Constructor` (doc_parser.rs lines 32-37); `desc` and `examples` required. -/
structure Constructor where
  desc : List Str
  params : Option (List Param)
  examples : List Str
deriving DecidableEq, Repr

/-- Rust struct `Member` (doc_parser.rs lines 39-47). -/
structure Member where
  name : Str
  assignable : Option Bool
  desc : Option (List Str)
  type_name : Option Str
  examples : Option (List Str)
deriving DecidableEq, Repr

/-- Rust struct `Class` (doc_parser.rs lines 9-19). -/
structure Class where
  name : Str
  desc : Option (List Str)
  import_path : Option Str
  static_members : Option (List Member)
  members : Option (List Member)
  constructors : Option (List Constructor)
  methods : Option (List Function)
  static_methods : Option (List Function)
deriving DecidableEq, Repr

/-- `add_from_string_array` (doc_parser.rs lines 392-397): push each line then a newline. -/
def add_from_string_array (md : Str) (array : List Str) : Str :=
  array.foldl (fun m v => m ++ v ++ lit ("\n")) md

/-- `add_description` (doc_parser.rs lines 348-351). -/
def add_description (md : Str) (desc : List Str) : Str :=
  add_from_string_array (md ++ lit ("- Description: ")) desc

/-- The comma-separated parameter-name list built by the indexed loop of
`add_params_in_function` (doc_parser.rs lines 310-319). -/
def param_names : List Param → Str
  | [] => []
  | [p] => p.name
  | p :: rest => p.name ++ lit (", ") ++ param_names rest

/-- `add_params_in_function` (doc_parser.rs lines 310-319). -/
def add_params_in_function (md : Str) (params : List Param) : Str :=
  md ++ param_names params

/-- One indented bullet of the multi-parameter branch of `add_params`
(doc_parser.rs lines 367-375). -/
def param_bullet (p : Param) : Str :=
  lit ("  - ") ++ p.type_name ++ lit (" (`") ++ p.name ++ lit ("`): ") ++ p.desc ++ lit ("\n")

/-- `add_params` (doc_parser.rs lines 353-376): single-line form when
`params.len() == 1`, otherwise the `- Parameters:` bullet list. -/
def add_params (md : Str) (params : List Param) : Str :=
  match params with
  | [param] =>
    md ++ lit ("- Parameter - ") ++ param.type_name ++ lit (" (`") ++ param.name
      ++ lit ("`): ") ++ param.desc ++ lit ("\n")
  | _ =>
    params.foldl (fun m param => m ++ param_bullet param) (md ++ lit ("- Parameters:\n"))

/-- `example.replace("\t", "    ")` (doc_parser.rs line 382). -/
def replaceTabs : Str → Str
  | [] => []
  | c :: rest => (if c = '\t' then lit ("    ") else [c]) ++ replaceTabs rest

/-- The `while md.ends_with("\n") { md.remove(md.len() - 1) }` loop of
`add_examples` (doc_parser.rs lines 384-386): drop all trailing newlines. -/
def stripTrailingNewlines (md : Str) : Str :=
  (md.reverse.dropWhile (fun c => c == '\n')).reverse

/-- One iteration of the example loop (doc_parser.rs lines 380-388): open the
fence, push the tab-expanded example, strip the trailing newlines of the whole
accumulated string, close the fence. -/
def example_step (m : Str) (ex : Str) : Str :=
  stripTrailingNewlines (m ++ lit ("```kt\n") ++ replaceTabs ex) ++ lit ("\n```\n")

/-- The heading chosen by `add_examples` (doc_parser.rs line 379): plural only
when there is more than one example. -/
def examplesHeading (examples : List Str) : Str :=
  if examples.length > 1 then lit ("- Examples:\n") else lit ("- Example:\n")

/-- `add_examples` (doc_parser.rs lines 378-390). -/
def add_examples (md : Str) (examples : List Str) : Str :=
  examples.foldl example_step (md ++ examplesHeading examples)

def boolStr (b : Bool) : Str :=
  if b then lit ("true") else lit ("false")

/-- The markdown pushed for one non-skipped member
(doc_parser.rs lines 328-344). -/
def member_entry (md : Str) (class_name name : Str) (assignable : Bool)
    (desc : List Str) (type_name : Str) (examples : List Str) : Str :=
  add_examples
    (add_description
      (md ++ lit ("### `") ++ class_name ++ lit (".") ++ name ++ lit ("`\n")) desc
     ++ lit ("- Type: ") ++ type_name ++ lit ("\n")
     ++ lit ("- Assignable: ") ++ boolStr assignable ++ lit ("\n"))
    examples

/-- `add_member` (doc_parser.rs lines 321-346): members without the
`assignable` flag are skipped; for the others `desc`, `type` and `examples`
are unwrapped unconditionally, so a missing one panics (`none`). -/
def add_member (md : Str) (class_name : Str) : List Member → Option Str
  | [] => some md
  | m :: rest =>
    match m.assignable with
    | none => add_member md class_name rest
    | some assignable =>
      match m.desc, m.type_name, m.examples with
      | some desc, some type_name, some examples =>
        add_member (member_entry md class_name m.name assignable desc type_name examples)
          class_name rest
      | _, _, _ => none

/-- Result of `add_function` (doc_parser.rs lines 255-308): `skip` is the
Rust `None` return (no examples), `panic` a process abort
(`function.desc.unwrap()` on `None`), `ok` the rendered fragment. -/
inductive FuncResult where
  | panic : FuncResult
  | skip : FuncResult
  | ok : Str → FuncResult
deriving DecidableEq, Repr

/-- `add_function` (doc_parser.rs lines 255-308). -/
def add_function (class_op : Option Str) (f : Function) : FuncResult :=
  match f.examples with
  | none => FuncResult.skip
  | some examples =>
    let md := lit ("### `")
    let md := match class_op with
      | some c => md ++ c ++ lit (".")
      | none => md
    let md := md ++ f.name ++ lit ("(")
    let md := match f.params with
      | some params => add_params_in_function md params
      | none => md
    let md := md ++ lit (")`\n")
    let md := match f.deprecated with
      | some deprecation => add_from_string_array (md ++ lit ("- Deprecated: ")) deprecation
      | none => md
    match f.desc with
    | none => FuncResult.panic
    | some desc =>
      let md := add_description md desc
      let md := match f.params with
        | some params => add_params md params
        | none => md
      let md := match f.returns with
        | some r => md ++ lit ("- Returns - ") ++ r.type_name ++ lit (": ") ++ r.desc ++ lit ("\n")
        | none => md
      let md := match f.throws with
        | some throws =>
          throws.foldl (fun m v => m ++ lit ("  - `'") ++ v ++ lit ("'`\n"))
            (md ++ lit ("- Throws - Error:\n"))
        | none => md
      FuncResult.ok (add_examples md examples)

/-- The function-rendering loop shared by the Methods / Static Methods
sections of `parse_class` (doc_parser.rs lines 215-227 and 236-248) and by
`parse_extension` (doc_parser.rs lines 113-126): a skipped function is
passed over, a rendered one is pushed, and a `'\n'` separator is pushed
after a rendered entry whenever further entries remain in the list. -/
def add_functions (class_op : Option Str) : List Function → Option Str
  | [] => some []
  | f :: rest =>
    match add_function class_op f with
    | FuncResult.panic => none
    | FuncResult.skip => add_functions class_op rest
    | FuncResult.ok s =>
      match rest with
      | [] => some s
      | _ => (add_functions class_op rest).map (fun r => s ++ lit ("\n") ++ r)

/-- One constructor entry of the Constructors section
(doc_parser.rs lines 187-205). -/
def add_constructor (md : Str) (class_name : Str) (c : Constructor) : Str :=
  let m := md ++ lit ("### `new ") ++ class_name ++ lit ("(")
  let m := match c.params with
    | some ps => add_params_in_function m ps
    | none => m
  let m := m ++ lit (")`\n")
  let m := add_description m c.desc
  let m := match c.params with
    | some ps => add_params m ps
    | none => m
  add_examples m c.examples

/-- The constructor loop of `parse_class` (doc_parser.rs lines 186-205):
entries are concatenated directly, with no separator between them. -/
def add_constructors (md : Str) (class_name : Str) (cs : List Constructor) : Str :=
  cs.foldl (fun m c => add_constructor m class_name c) md

/-- Static Members section of `parse_class` (doc_parser.rs lines 163-170). -/
def sectionStatics (cls : Class) (md : Str) : Option Str :=
  match cls.static_members with
  | none => some md
  | some statics =>
    if statics = [] then some md
    else (add_member (md ++ lit ("## Static Members\n\n")) cls.name statics).map
      (fun m => m ++ lit ("\n"))

/-- Members section of `parse_class` (doc_parser.rs lines 172-180). -/
def sectionMembers (cls : Class) (md : Str) : Option Str :=
  match cls.members with
  | none => some md
  | some members =>
    if members = [] then some md
    else (add_member (md ++ lit ("## Members\n\n"))
      (lit ("<") ++ cls.name ++ lit (">")) members).map (fun m => m ++ lit ("\n"))

/-- Constructors section of `parse_class` (doc_parser.rs lines 182-208). -/
def sectionConstructors (cls : Class) (md : Str) : Str :=
  match cls.constructors with
  | none => md
  | some cs =>
    if cs = [] then md
    else add_constructors (md ++ lit ("## Constructors\n\n")) cls.name cs ++ lit ("\n")

/-- Methods section of `parse_class` (doc_parser.rs lines 210-230). -/
def sectionMethods (cls : Class) (md : Str) : Option Str :=
  match cls.methods with
  | none => some md
  | some methods =>
    if methods = [] then some md
    else (add_functions (some (lit ("<") ++ cls.name ++ lit (">"))) methods).map
      (fun s => md ++ lit ("## Methods\n\n") ++ s ++ lit ("\n"))

/-- Static Methods section of `parse_class` (doc_parser.rs lines 232-250);
note: no trailing newline is pushed after this section. -/
def sectionStaticMethods (cls : Class) (md : Str) : Option Str :=
  match cls.static_methods with
  | none => some md
  | some static_methods =>
    if static_methods = [] then some md
    else (add_functions (some cls.name) static_methods).map
      (fun s => md ++ lit ("## Static Methods\n\n") ++ s)

/-- The section chain of `parse_class` after the `Fully Documented.` line
(doc_parser.rs lines 163-252), threading the accumulated markdown. -/
def render_sections (md : Str) (cls : Class) : Option Str :=
  (sectionStatics cls md).bind fun md1 =>
    (sectionMembers cls md1).bind fun md2 =>
      (sectionMethods cls (sectionConstructors cls md2)).bind fun md3 =>
        sectionStaticMethods cls md3

/-- The heading, blurb and optional description block of `parse_class`
(doc_parser.rs lines 136-147). -/
def classHeader (cls : Class) : Str :=
  lit ("# ") ++ cls.name ++ lit (" class\n") ++ cls.name ++ lit (" class for Arucas.\n\n")
    ++ (match cls.desc with
        | some desc => add_from_string_array [] desc ++ lit ("\n")
        | none => [])

/-- The import notice of `parse_class` (doc_parser.rs lines 149-159):
either the import template embedding the path twice, or the fixed
no-import sentence. -/
def importNotice : Option Str → Str
  | some import_path =>
    lit ("Import with `import ") ++ import_path ++ lit (" from ") ++ import_path ++ lit (";`\n\n")
  | none => lit ("Class does not need to be imported.\n\n")

/-- `parse_class` on an already-deserialized `Class`
(doc_parser.rs lines 136-252). -/
def render_class (cls : Class) : Option Str :=
  render_sections
    (classHeader cls ++ importNotice cls.import_path ++ lit ("Fully Documented.\n\n")) cls

/-- Generic JSON value (`serde_json::Value`).  Objects are association
lists; iteration (`values()` / `iter()`) follows list order, standing in
for the map-iteration order of `serde_json`'s object map, which no claim
depends on. -/
inductive Json where
  | null : Json
  | bool : Bool → Json
  | num : Int → Json
  | str : Str → Json
  | arr : List Json → Json
  | obj : List (Str × Json) → Json

def getField (fields : List (Str × Json)) (k : Str) : Option Json :=
  (fields.find? (fun p => p.1 = k)).map (fun p => p.2)

/-- `serde_json::Value` string indexing: `Null` when the key is missing or
the value is not an object. -/
def Json.index (j : Json) (k : Str) : Json :=
  match j with
  | Json.obj fields =>
    match getField fields k with
    | some v => v
    | none => Json.null
  | _ => Json.null

def Json.as_object : Json → Option (List (Str × Json))
  | Json.obj fields => some fields
  | _ => none

def Json.as_array : Json → Option (List Json)
  | Json.arr xs => some xs
  | _ => none

def asStr : Json → Option Str
  | Json.str s => some s
  | _ => none

def asBool : Json → Option Bool
  | Json.bool b => some b
  | _ => none

def asListOf (conv : Json → Option α) : Json → Option (List α)
  | Json.arr xs => xs.mapM conv
  | _ => none

/-- A serde required field: missing or wrong-shaped is a fatal error. -/
def reqField (fields : List (Str × Json)) (k : Str) (conv : Json → Option α) : Option α :=
  (getField fields k).bind conv

/-- A serde `Option<..>` field: missing or `null` is `none`; a present
value of the wrong shape is a fatal error. -/
def optField (fields : List (Str × Json)) (k : Str) (conv : Json → Option α) :
    Option (Option α) :=
  match getField fields k with
  | none => some none
  | some Json.null => some none
  | some v => (conv v).map some

def deserParam : Json → Option Param
  | Json.obj fields => do
    let name ← reqField fields (lit ("name")) asStr
    let type_name ← reqField fields (lit ("type")) asStr
    let desc ← reqField fields (lit ("desc")) asStr
    pure ⟨name, type_name, desc⟩
  | _ => none

def deserReturn : Json → Option Return
  | Json.obj fields => do
    let type_name ← reqField fields (lit ("type")) asStr
    let desc ← reqField fields (lit ("desc")) asStr
    pure ⟨type_name, desc⟩
  | _ => none

def deserFunction : Json → Option Function
  | Json.obj fields => do
    let name ← reqField fields (lit ("name")) asStr
    let deprecated ← optField fields (lit ("deprecated")) (asListOf asStr)
    let desc ← optField fields (lit ("desc")) (asListOf asStr)
    let params ← optField fields (lit ("params")) (asListOf deserParam)
    let returns ← optField fields (lit ("returns")) deserReturn
    let throws ← optField fields (lit ("throws")) (asListOf asStr)
    let examples ← optField fields (lit ("examples")) (asListOf asStr)
    pure ⟨name, deprecated, desc, params, returns, throws, examples⟩
  | _ => none

def deserConstructor : Json → Option Constructor
  | Json.obj fields => do
    let desc ← reqField fields (lit ("desc")) (asListOf asStr)
    let params ← optField fields (lit ("params")) (asListOf deserParam)
    let examples ← reqField fields (lit ("examples")) (asListOf asStr)
    pure ⟨desc, params, examples⟩
  | _ => none

def deserMember : Json → Option Member
  | Json.obj fields => do
    let name ← reqField fields (lit ("name")) asStr
    let assignable ← optField fields (lit ("assignable")) asBool
    let desc ← optField fields (lit ("desc")) (asListOf asStr)
    let type_name ← optField fields (lit ("type")) asStr
    let examples ← optField fields (lit ("examples")) (asListOf asStr)
    pure ⟨name, assignable, desc, type_name, examples⟩
  | _ => none

def deserClass : Json → Option Class
  | Json.obj fields => do
    let name ← reqField fields (lit ("name")) asStr
    let desc ← optField fields (lit ("desc")) (asListOf asStr)
    let import_path ← optField fields (lit ("import_path")) asStr
    let static_members ← optField fields (lit ("static_members")) (asListOf deserMember)
    let members ← optField fields (lit ("members")) (asListOf deserMember)
    let constructors ← optField fields (lit ("constructors")) (asListOf deserConstructor)
    let methods ← optField fields (lit ("methods")) (asListOf deserFunction)
    let static_methods ← optField fields (lit ("static_methods")) (asListOf deserFunction)
    pure ⟨name, desc, import_path, static_members, members, constructors, methods,
      static_methods⟩
  | _ => none

/-- `parse_class` (doc_parser.rs lines 131-253): deserialize, then render;
a deserialization error or a rendering panic aborts (`none`). -/
def parse_class (v : Json) : Option Str :=
  (deserClass v).bind render_class

/-- The class loop of `parse_classes` (doc_parser.rs lines 92-101):
fragments joined by `"\n\n"` pushed only while further classes remain. -/
def parse_classes_loop : List Json → Option Str
  | [] => some []
  | [v] => parse_class v
  | v :: rest =>
    (parse_class v).bind fun s =>
      (parse_classes_loop rest).map (fun r => s ++ lit ("\n\n") ++ r)

/-- `parse_classes` (doc_parser.rs lines 90-104). -/
def parse_classes (j : Json) : Option Str :=
  (Json.as_object (Json.index j (lit ("classes")))).bind fun classes =>
    parse_classes_loop (classes.map Prod.snd)

/-- The function loop of `parse_extension` (doc_parser.rs lines 113-126):
each element is deserialized in turn, skipped functions are passed over,
and a `'\n'` separator follows a rendered entry whenever more elements
remain. -/
def ext_loop : List Json → Option Str
  | [] => some []
  | v :: rest =>
    (deserFunction v).bind fun f =>
      match add_function none f with
      | FuncResult.panic => none
      | FuncResult.skip => ext_loop rest
      | FuncResult.ok s =>
        match rest with
        | [] => some s
        | _ => (ext_loop rest).map (fun r => s ++ lit ("\n") ++ r)

/-- `parse_extension` (doc_parser.rs lines 106-129). -/
def parse_extension (name : Str) (functions : List Json) : Option Str :=
  (ext_loop functions).map (fun r => lit ("## ") ++ name ++ lit ("\n\n") ++ r)

/-- The extension-group loop of `parse_extensions`
(doc_parser.rs lines 74-85). -/
def exts_loop : List (Str × Json) → Option Str
  | [] => some []
  | e :: rest =>
    (Json.as_array e.2).bind fun functions =>
      (parse_extension e.1 functions).bind fun s =>
        match rest with
        | [] => some s
        | _ => (exts_loop rest).map (fun r => s ++ lit ("\n\n") ++ r)

/-- `parse_extensions` (doc_parser.rs lines 72-88). -/
def parse_extensions (j : Json) : Option Str :=
  (Json.as_object (Json.index j (lit ("extensions")))).bind exts_loop

/-- `main` (main.rs lines 6-11): the list of (path, content) writes that
reach the filesystem.  `parser.parse_classes()` is evaluated and written to
`Classes.md` first; only then is `parser.parse_extensions()` evaluated and
written to `Extensions.md`.  A rendering panic aborts the remaining
writes. -/
def mainWrites (j : Json) : List (Str × Str) :=
  match parse_classes j with
  | none => []
  | some classes_md =>
    match parse_extensions j with
    | none => [(lit ("Classes.md"), classes_md)]
    | some exts_md => [(lit ("Classes.md"), classes_md), (lit ("Extensions.md"), exts_md)]

/-! ### Definitions used to state the claims -/

/-- Number of (possibly overlapping) occurrences of `pat` in `s`. -/
def countOccs (pat : Str) : Str → Nat
  | [] => 0
  | c :: rest => (if List.isPrefixOf pat (c :: rest) then 1 else 0) + countOccs pat rest

/-- The fenced block the specification describes for one example string:
tabs expanded to four spaces, trailing newlines stripped, exactly one
closing fence with no blank line before it. -/
def exampleBlock (e : Str) : Str :=
  lit ("```kt\n") ++ stripTrailingNewlines (replaceTabs e) ++ lit ("\n```\n")

/-- Amended separator rule for function lists: a rendered entry is followed
by one `'\n'` separator exactly when further entries remain in the list
(rendered or not); skipped entries contribute nothing of their own. -/
def renderedEntrySep (class_op : Option Str) (f : Function) : Str :=
  match add_function class_op f with
  | FuncResult.ok s => s ++ lit ("\n")
  | _ => []

/-- The panic-free output of a function list under the amended separator
rule: every rendered entry except a final list element carries a trailing
separator, skipped entries contribute zero bytes and zero separators. -/
def specJoin (class_op : Option Str) : List Function → Str
  | [] => []
  | [f] =>
    match add_function class_op f with
    | FuncResult.ok s => s
    | _ => []
  | f :: rest => renderedEntrySep class_op f ++ specJoin class_op rest

/-- `parse_class` mapped over a list of JSON class values, propagating the
first abort. -/
def mapParse : List Json → Option (List Str)
  | [] => some []
  | v :: rest => (parse_class v).bind fun f => (mapParse rest).map (fun fs => f :: fs)

/-! ### Concrete inputs -/

/-- A function with a description and one example: renders successfully. -/
def fOK : Function := ⟨lit ("f"), none, some [lit ("d")], none, none, none, some [lit ("x")]⟩

/-- A function with no examples field: skipped by `add_function`. -/
def fSkip : Function := ⟨lit ("g"), none, none, none, none, none, none⟩

/-- A function whose examples list is present but empty. -/
def fEmptyEx : Function := ⟨lit ("f"), none, some [lit ("d")], none, none, none, some []⟩

/-- A function whose params list is present but empty. -/
def fEmptyParams : Function :=
  ⟨lit ("f"), none, some [lit ("d")], some [], none, none, some [lit ("x")]⟩

/-- A function with one example but no description: rendering panics. -/
def fNoDesc : Function := ⟨lit ("f"), none, none, none, none, none, some [lit ("x")]⟩

def pX : Param := ⟨lit ("x"), lit ("Type"), lit ("the x")⟩

/-- A fully documented static member. -/
def mStatic : Member :=
  ⟨lit ("sm"), some false, some [lit ("static member")], some (lit ("Number")),
    some [lit ("Foo.sm;")]⟩

/-- A fully documented instance member with `assignable = true`. -/
def mInst : Member :=
  ⟨lit ("im"), some true, some [lit ("instance member")], some (lit ("String")),
    some [lit ("foo.im;")]⟩

/-- A member with the `assignable` flag present but no description. -/
def mBad : Member :=
  ⟨lit ("bad"), some true, none, some (lit ("Number")), some [lit ("X.bad;")]⟩

/-- A class with exactly one static member, one instance member, and no
constructors, methods or static methods. -/
def cls9 : Class := ⟨lit ("Foo"), none, none, some [mStatic], some [mInst], none, none, none⟩

/-- The fragment `render_class` produces for `cls9`. -/
def frag9 : Str := lit ("# Foo class\nFoo class for Arucas.\n\nClass does not need to be imported.\n\nFully Documented.\n\n## Static Members\n\n### `Foo.sm`\n- Description: static member\n- Type: Number\n- Assignable: false\n- Example:\n```kt\nFoo.sm;\n```\n\n## Members\n\n### `<Foo>.im`\n- Description: instance member\n- Type: String\n- Assignable: true\n- Example:\n```kt\nfoo.im;\n```\n\n")

/-- A document whose classes object is empty but whose extensions object
holds a function value missing the required `name` field: the classes
document renders, the extensions document aborts. -/
def jBadExt : Json :=
  Json.obj [(lit ("classes"), Json.obj []),
    (lit ("extensions"), Json.obj [(lit ("ext"), Json.arr [Json.obj []])])]

def clsAJson : Json := Json.obj [(lit ("name"), Json.str (lit ("A")))]

def clsBJson : Json := Json.obj [(lit ("name"), Json.str (lit ("B")))]

/-- A document with two minimal classes and no extensions. -/
def jTwo : Json :=
  Json.obj [(lit ("classes"), Json.obj [(lit ("A"), clsAJson), (lit ("B"), clsBJson)]),
    (lit ("extensions"), Json.obj [])]

def fragA : Str := lit ("# A class\nA class for Arucas.\n\nClass does not need to be imported.\n\nFully Documented.\n\n")

def fragB : Str := lit ("# B class\nB class for Arucas.\n\nClass does not need to be imported.\n\nFully Documented.\n\n")

/-! ### Helper lemmas -/

theorem dropWhile_append_of_ne_nil {α : Type} {p : α → Bool} {l₁ : List α} (l₂ : List α)
    (h : l₁.dropWhile p ≠ []) :
    (l₁ ++ l₂).dropWhile p = l₁.dropWhile p ++ l₂ := by
  induction l₁ with
  | nil => simp [List.dropWhile] at h
  | cons x xs ih =>
    by_cases hx : p x
    · simp only [List.dropWhile_cons, hx, if_pos] at h ⊢
      simp only [List.cons_append, List.dropWhile_cons, hx, if_pos]
      exact ih h
    · simp [List.cons_append, List.dropWhile_cons, hx]

theorem strip_append (a b : Str) (h : stripTrailingNewlines b ≠ []) :
    stripTrailingNewlines (a ++ b) = a ++ stripTrailingNewlines b := by
  have h' : b.reverse.dropWhile (fun c => c == '\n') ≠ [] := by
    intro hb
    exact h (by simp [stripTrailingNewlines, hb])
  simp only [stripTrailingNewlines, List.reverse_append]
  rw [dropWhile_append_of_ne_nil _ h', List.reverse_append, List.reverse_reverse]

theorem strip_eq_nil_iff {l : Str} :
    stripTrailingNewlines l = [] ↔ ∀ c ∈ l, c = '\n' := by
  simp [stripTrailingNewlines, List.dropWhile_eq_nil_iff]

theorem strip_fence_ne (m r : Str) :
    stripTrailingNewlines (m ++ lit ("```kt\n") ++ r) ≠ [] := by
  intro h
  rw [strip_eq_nil_iff] at h
  have hmem : '`' ∈ m ++ lit ("```kt\n") ++ r :=
    List.mem_append.mpr (Or.inl (List.mem_append.mpr (Or.inr (by decide))))
  exact absurd (h '`' hmem) (by decide)

theorem foldl_append_hom {α : Type} (f : Str → α → Str)
    (hf : ∀ (a m : Str) (x : α), f (a ++ m) x = a ++ f m x) (a : Str) :
    ∀ (l : List α) (m : Str), l.foldl f (a ++ m) = a ++ l.foldl f m := by
  intro l
  induction l with
  | nil => intro m; simp
  | cons x xs ih =>
    intro m
    simp only [List.foldl_cons, hf]
    exact ih _

theorem foldl_append_flatten {α : Type} (g : α → Str) :
    ∀ (l : List α) (acc : Str),
      l.foldl (fun m x => m ++ g x) acc = acc ++ (l.map g).flatten := by
  intro l
  induction l with
  | nil => intro acc; simp
  | cons x xs ih =>
    intro acc
    simp only [List.foldl_cons, List.map_cons, List.flatten_cons]
    rw [ih, List.append_assoc]

theorem add_from_string_array_append (a b : Str) (arr : List Str) :
    add_from_string_array (a ++ b) arr = a ++ add_from_string_array b arr :=
  foldl_append_hom _ (fun x m v => by simp [List.append_assoc]) a arr b

theorem add_description_append (a b : Str) (desc : List Str) :
    add_description (a ++ b) desc = a ++ add_description b desc := by
  unfold add_description
  rw [List.append_assoc, add_from_string_array_append]

theorem add_params_append (a b : Str) (ps : List Param) :
    add_params (a ++ b) ps = a ++ add_params b ps := by
  match ps with
  | [] => simp [add_params, List.append_assoc]
  | [p] => simp [add_params, List.append_assoc]
  | p :: q :: rest =>
    show List.foldl _ ((a ++ b) ++ lit ("- Parameters:\n")) _ = _
    rw [List.append_assoc]
    exact foldl_append_hom _ (fun x m v => by simp [List.append_assoc]) a _ _

theorem example_step_append (a m ex : Str) :
    example_step (a ++ m) ex = a ++ example_step m ex := by
  unfold example_step
  have hre : (a ++ m) ++ lit ("```kt\n") ++ replaceTabs ex
      = a ++ (m ++ lit ("```kt\n") ++ replaceTabs ex) := by
    simp [List.append_assoc]
  rw [hre, strip_append _ _ (strip_fence_ne m (replaceTabs ex)), List.append_assoc]

theorem add_examples_append (a b : Str) (es : List Str) :
    add_examples (a ++ b) es = a ++ add_examples b es := by
  unfold add_examples
  rw [List.append_assoc]
  exact foldl_append_hom _ example_step_append a es _

theorem member_entry_append (a b cn nm : Str) (asg : Bool) (d : List Str) (tn : Str)
    (ex : List Str) :
    member_entry (a ++ b) cn nm asg d tn ex = a ++ member_entry b cn nm asg d tn ex := by
  unfold member_entry
  have h1 : (a ++ b) ++ lit ("### `") ++ cn ++ lit (".") ++ nm ++ lit ("`\n")
      = a ++ (b ++ lit ("### `") ++ cn ++ lit (".") ++ nm ++ lit ("`\n")) := by
    simp [List.append_assoc]
  rw [h1, add_description_append]
  have h2 : (a ++ add_description (b ++ lit ("### `") ++ cn ++ lit (".") ++ nm ++ lit ("`\n")) d)
        ++ lit ("- Type: ") ++ tn ++ lit ("\n") ++ lit ("- Assignable: ") ++ boolStr asg
        ++ lit ("\n")
      = a ++ (add_description (b ++ lit ("### `") ++ cn ++ lit (".") ++ nm ++ lit ("`\n")) d
        ++ lit ("- Type: ") ++ tn ++ lit ("\n") ++ lit ("- Assignable: ") ++ boolStr asg
        ++ lit ("\n")) := by
    simp [List.append_assoc]
  rw [h2, add_examples_append]

theorem add_member_append (a cn : Str) (ms : List Member) :
    ∀ b : Str, add_member (a ++ b) cn ms = (add_member b cn ms).map (fun s => a ++ s) := by
  induction ms with
  | nil => intro b; simp [add_member]
  | cons m rest ih =>
    intro b
    cases hass : m.assignable with
    | none => simp only [add_member, hass]; exact ih b
    | some asg =>
      cases hd : m.desc <;> cases ht : m.type_name <;> cases he : m.examples <;>
        simp only [add_member, hass, hd, ht, he, Option.map_none']
      case some.some.some d tn ex =>
        rw [member_entry_append]
        exact ih _

theorem add_constructor_append (a b cn : Str) (c : Constructor) :
    add_constructor (a ++ b) cn c = a ++ add_constructor b cn c := by
  cases hp : c.params with
  | none =>
    simp only [add_constructor, hp]
    have h1 : (a ++ b) ++ lit ("### `new ") ++ cn ++ lit ("(") ++ lit (")`\n")
        = a ++ (b ++ lit ("### `new ") ++ cn ++ lit ("(") ++ lit (")`\n")) := by
      simp [List.append_assoc]
    rw [h1, add_description_append, add_examples_append]
  | some ps =>
    simp only [add_constructor, hp]
    have h1 : (a ++ b) ++ lit ("### `new ") ++ cn ++ lit ("(")
        = a ++ (b ++ lit ("### `new ") ++ cn ++ lit ("(")) := by
      simp [List.append_assoc]
    rw [h1]
    unfold add_params_in_function
    have h2 : a ++ (b ++ lit ("### `new ") ++ cn ++ lit ("(")) ++ param_names ps
          ++ lit (")`\n")
        = a ++ ((b ++ lit ("### `new ") ++ cn ++ lit ("(")) ++ param_names ps
          ++ lit (")`\n")) := by
      simp [List.append_assoc]
    rw [h2, add_description_append, add_params_append, add_examples_append]

theorem add_constructors_append (a b cn : Str) (cs : List Constructor) :
    add_constructors (a ++ b) cn cs = a ++ add_constructors b cn cs :=
  foldl_append_hom _ (fun x m c => add_constructor_append x m cn c) a cs b

theorem sectionStatics_append (a b : Str) (cls : Class) :
    sectionStatics cls (a ++ b) = (sectionStatics cls b).map (fun s => a ++ s) := by
  cases hsm : cls.static_members with
  | none => simp [sectionStatics, hsm]
  | some statics =>
    by_cases hse : statics = []
    · simp [sectionStatics, hsm, hse]
    · simp only [sectionStatics, hsm, if_neg hse]
      rw [List.append_assoc, add_member_append]
      cases add_member (b ++ lit ("## Static Members\n\n")) cls.name statics <;> simp

theorem sectionMembers_append (a b : Str) (cls : Class) :
    sectionMembers cls (a ++ b) = (sectionMembers cls b).map (fun s => a ++ s) := by
  cases hm : cls.members with
  | none => simp [sectionMembers, hm]
  | some members =>
    by_cases hme : members = []
    · simp [sectionMembers, hm, hme]
    · simp only [sectionMembers, hm, if_neg hme]
      rw [List.append_assoc, add_member_append]
      cases add_member (b ++ lit ("## Members\n\n")) (lit ("<") ++ cls.name ++ lit (">"))
        members <;> simp

theorem sectionConstructors_append (a b : Str) (cls : Class) :
    sectionConstructors cls (a ++ b) = a ++ sectionConstructors cls b := by
  cases hc : cls.constructors with
  | none => simp [sectionConstructors, hc]
  | some cs =>
    by_cases hce : cs = []
    · simp [sectionConstructors, hc, hce]
    · simp only [sectionConstructors, hc, if_neg hce]
      rw [List.append_assoc, add_constructors_append, List.append_assoc]

theorem sectionMethods_append (a b : Str) (cls : Class) :
    sectionMethods cls (a ++ b) = (sectionMethods cls b).map (fun s => a ++ s) := by
  cases hm : cls.methods with
  | none => simp [sectionMethods, hm]
  | some methods =>
    by_cases hme : methods = []
    · simp [sectionMethods, hm, hme]
    · simp only [sectionMethods, hm, if_neg hme]
      cases add_functions (some (lit ("<") ++ cls.name ++ lit (">"))) methods <;>
        simp [List.append_assoc]

theorem sectionStaticMethods_append (a b : Str) (cls : Class) :
    sectionStaticMethods cls (a ++ b) = (sectionStaticMethods cls b).map (fun s => a ++ s) := by
  cases hm : cls.static_methods with
  | none => simp [sectionStaticMethods, hm]
  | some sms =>
    by_cases hme : sms = []
    · simp [sectionStaticMethods, hm, hme]
    · simp only [sectionStaticMethods, hm, if_neg hme]
      cases add_functions (some cls.name) sms <;> simp [List.append_assoc]

theorem render_sections_append (a b : Str) (cls : Class) :
    render_sections (a ++ b) cls = (render_sections b cls).map (fun s => a ++ s) := by
  unfold render_sections
  rw [sectionStatics_append]
  cases h1 : sectionStatics cls b with
  | none => simp
  | some m1 =>
    simp only [Option.map_some', Option.some_bind]
    rw [sectionMembers_append]
    cases h2 : sectionMembers cls m1 with
    | none => simp
    | some m2 =>
      simp only [Option.map_some', Option.some_bind]
      rw [sectionConstructors_append, sectionMethods_append]
      cases h3 : sectionMethods cls (sectionConstructors cls m2) with
      | none => simp
      | some m3 =>
        simp only [Option.map_some', Option.some_bind]
        rw [sectionStaticMethods_append]

theorem example_step_spec (m ex : Str) (h : stripTrailingNewlines (replaceTabs ex) ≠ []) :
    example_step m ex = m ++ exampleBlock ex := by
  unfold example_step exampleBlock
  have h1 : stripTrailingNewlines (lit ("```kt\n") ++ replaceTabs ex)
      = lit ("```kt\n") ++ stripTrailingNewlines (replaceTabs ex) := strip_append _ _ h
  have h2 : stripTrailingNewlines (lit ("```kt\n") ++ replaceTabs ex) ≠ [] := by
    rw [h1]; simp [lit]
  rw [List.append_assoc, strip_append _ _ h2, h1]
  simp [List.append_assoc]

theorem foldl_example_step (es : List Str)
    (h : ∀ e ∈ es, stripTrailingNewlines (replaceTabs e) ≠ []) :
    ∀ acc : Str, es.foldl example_step acc = acc ++ (es.map exampleBlock).flatten := by
  induction es with
  | nil => intro acc; simp
  | cons e rest ih =>
    intro acc
    have he := h e (by simp)
    have hrest : ∀ x ∈ rest, stripTrailingNewlines (replaceTabs x) ≠ [] :=
      fun x hx => h x (by simp [hx])
    simp only [List.foldl_cons, List.map_cons, List.flatten_cons]
    rw [example_step_spec acc e he, ih hrest, List.append_assoc]

theorem intercalate_singleton (sep x : Str) : List.intercalate sep [x] = x := by
  simp [List.intercalate, List.intersperse]

theorem intercalate_cons_cons (sep x y : Str) (l : List Str) :
    List.intercalate sep (x :: y :: l) = x ++ sep ++ List.intercalate sep (y :: l) := by
  simp [List.intercalate, List.intersperse, List.append_assoc]

theorem mapParse_cons_shape {v : Json} {vs : List Json} {frags : List Str}
    (h : mapParse (v :: vs) = some frags) :
    ∃ f fs, parse_class v = some f ∧ mapParse vs = some fs ∧ frags = f :: fs := by
  cases hv : parse_class v with
  | none => rw [mapParse, hv] at h; simp at h
  | some f =>
    cases hm : mapParse vs with
    | none => rw [mapParse, hv, hm] at h; simp at h
    | some fs =>
      rw [mapParse, hv, hm] at h
      simp only [Option.some_bind, Option.map_some', Option.some_inj] at h
      exact ⟨f, fs, rfl, rfl, h.symm⟩

theorem loop_intercalate :
    ∀ (vs : List Json) (frags : List Str), mapParse vs = some frags →
      parse_classes_loop vs = some (List.intercalate (lit ("\n\n")) frags) := by
  intro vs
  induction vs with
  | nil =>
    intro frags h
    rw [mapParse] at h
    simp only [Option.some_inj] at h
    subst h
    simp [parse_classes_loop, List.intercalate]
  | cons v rest ih =>
    intro frags h
    obtain ⟨f, fs, hv, hm, rfl⟩ := mapParse_cons_shape h
    cases rest with
    | nil =>
      rw [mapParse] at hm
      simp only [Option.some_inj] at hm
      subst hm
      simp [parse_classes_loop, hv, intercalate_singleton]
    | cons v' rest' =>
      obtain ⟨f', fs', hv', hm', rfl⟩ := mapParse_cons_shape hm
      have ihr := ih _ hm
      have hstep : parse_classes_loop (v :: v' :: rest')
          = (parse_class v).bind fun s =>
              (parse_classes_loop (v' :: rest')).map (fun r => s ++ lit ("\n\n") ++ r) := rfl
      rw [hstep, hv, Option.some_bind, ihr, intercalate_cons_cons]
      simp

/-! ### Claim theorems -/

/-- C1, counterexample: on `jBadExt` the extensions document aborts with a
fatal rendering error, yet `Classes.md` has already been committed — the
claim that neither output file is written when either render aborts is
false. -/
theorem c1_no_partial_commit_counterexample :
    parse_extensions jBadExt = none ∧
    mainWrites jBadExt = [(lit ("Classes.md"), lit (""))] := by decide

/-- C1, amended: a fatal error while rendering the classes document prevents
both writes, but `Classes.md` is committed as soon as the classes document
renders, before the extensions document is rendered; a fatal error while
rendering extensions therefore leaves `Classes.md` already written and only
`Extensions.md` unwritten. -/
theorem c1_write_order (j : Json) :
    (parse_classes j = none → mainWrites j = []) ∧
    (∀ c, parse_classes j = some c → parse_extensions j = none →
      mainWrites j = [(lit ("Classes.md"), c)]) ∧
    (∀ c e, parse_classes j = some c → parse_extensions j = some e →
      mainWrites j = [(lit ("Classes.md"), c), (lit ("Extensions.md"), e)]) := by
  refine ⟨fun h => ?_, fun c hc he => ?_, fun c e hc he => ?_⟩ <;> simp [mainWrites, *]

/-- C1 witness: `c1_write_order` applied to the concrete document `jBadExt`. -/
theorem c1_write_order_witness :
    mainWrites jBadExt = [(lit ("Classes.md"), lit (""))] :=
  (c1_write_order jBadExt).2.1 (lit ("")) (by decide) (by decide)

/-- C2, counterexample: a function whose examples list is present but empty
is NOT skipped — `add_function` renders it (with a `- Example:` heading and
no code block), refuting "skip iff examples empty or absent". -/
theorem c2_skip_counterexample :
    add_function none fEmptyEx ≠ FuncResult.skip ∧
    add_function none fEmptyEx =
      FuncResult.ok (lit ("### `f()`\n- Description: d\n- Example:\n")) := by decide

/-- C2, amended: `add_function` returns skip iff the examples field is
absent; a present (even empty) examples list is rendered, and a function
with at least one example is never skipped. -/
theorem c2_skip_iff_examples_absent (class_op : Option Str) (f : Function) :
    add_function class_op f = FuncResult.skip ↔ f.examples = none := by
  cases hex : f.examples with
  | none => simp [add_function, hex]
  | some es =>
    simp only [add_function, hex]
    cases hd : f.desc <;> simp [hd]

/-- C3, counterexample: after a successfully rendered entry the separator is
pushed whenever further entries remain — even when the final entry is then
skipped — so a trailing separator does precede a skipped final entry. -/
theorem c3_separator_counterexample :
    add_function none fSkip = FuncResult.skip ∧
    add_functions none [fOK, fSkip] =
      some (lit ("### `f()`\n- Description: d\n- Example:\n```kt\nx\n```\n\n")) ∧
    add_functions none [fOK] =
      some (lit ("### `f()`\n- Description: d\n- Example:\n```kt\nx\n```\n")) := by decide

/-- C3, amended: in a panic-free function list, a skipped entry contributes
zero bytes and zero separators of its own, and a rendered entry is followed
by exactly one separator iff it is not the final element of the list
(whether or not the later entries render). -/
theorem add_functions_cons_skip (class_op : Option Str) (f : Function) (rest : List Function)
    (h : add_function class_op f = FuncResult.skip) :
    add_functions class_op (f :: rest) = add_functions class_op rest := by
  cases rest <;> simp [add_functions, h]

theorem add_functions_cons_ok (class_op : Option Str) (f g : Function) (rest : List Function)
    (s : Str) (h : add_function class_op f = FuncResult.ok s) :
    add_functions class_op (f :: g :: rest)
      = (add_functions class_op (g :: rest)).map (fun r => s ++ lit ("\n") ++ r) := by
  simp [add_functions, h]

theorem c3_separator_rule (class_op : Option Str) (fs : List Function)
    (h : ∀ f ∈ fs, add_function class_op f ≠ FuncResult.panic) :
    add_functions class_op fs = some (specJoin class_op fs) := by
  induction fs with
  | nil => simp [add_functions, specJoin]
  | cons f rest ih =>
    have hf := h f (by simp)
    have hrest : ∀ g ∈ rest, add_function class_op g ≠ FuncResult.panic :=
      fun g hg => h g (by simp [hg])
    have ihr := ih hrest
    cases rest with
    | nil =>
      cases haf : add_function class_op f with
      | panic => exact absurd haf hf
      | skip => simp [add_functions, specJoin, haf]
      | ok s => simp [add_functions, specJoin, haf]
    | cons g rest' =>
      cases haf : add_function class_op f with
      | panic => exact absurd haf hf
      | skip =>
        rw [add_functions_cons_skip class_op f (g :: rest') haf, ihr]
        simp [specJoin, renderedEntrySep, haf]
      | ok s =>
        rw [add_functions_cons_ok class_op f g rest' s haf, ihr]
        simp [specJoin, renderedEntrySep, haf, List.append_assoc]

/-- C3 witness: `c3_separator_rule` applied to the concrete list
`[fOK, fSkip]`. -/
theorem c3_separator_rule_witness :
    add_functions none [fOK, fSkip] = some (specJoin none [fOK, fSkip]) :=
  c3_separator_rule none [fOK, fSkip] (by decide)

/-- C4: a function with at least one example but no description renders to a
fatal panic, never to output missing the description line. -/
theorem c4_no_desc_panics (class_op : Option Str) (f : Function) (e : Str) (es : List Str)
    (hex : f.examples = some (e :: es)) (hd : f.desc = none) :
    add_function class_op f = FuncResult.panic := by
  simp [add_function, hex, hd]

/-- C4 witness: `c4_no_desc_panics` applied to the concrete `fNoDesc`. -/
theorem c4_no_desc_panics_witness : add_function none fNoDesc = FuncResult.panic :=
  c4_no_desc_panics none fNoDesc (lit ("x")) [] rfl rfl

/-- C5, counterexample: `add_params` IS invoked for a present-but-empty
parameter list (callers only check field presence), and then emits the
multi-parameter `- Parameters:` heading with zero parameters — refuting
both "never invoked for a zero-length list" and "multi-bullet form iff two
or more". -/
theorem c5_zero_params_counterexample :
    fEmptyParams.params = some [] ∧
    add_function none fEmptyParams =
      FuncResult.ok
        (lit ("### `f()`\n- Description: d\n- Parameters:\n- Example:\n```kt\nx\n```\n")) ∧
    countOccs (lit ("- Parameters:"))
      (lit ("### `f()`\n- Description: d\n- Parameters:\n- Example:\n```kt\nx\n```\n"))
      = 1 := by decide

/-- C5, amended: `add_params` uses the single-line `- Parameter - ...` form
iff the list has exactly one element, and the `- Parameters:` multi-bullet
form iff the count differs from one (including zero, since callers check
only field presence, not non-emptiness); the two forms are exclusive. -/
theorem c5_param_forms (md : Str) (ps : List Param) :
    (∀ p, ps = [p] →
      add_params md ps = md ++ lit ("- Parameter - ") ++ p.type_name ++ lit (" (`")
        ++ p.name ++ lit ("`): ") ++ p.desc ++ lit ("\n")) ∧
    (ps.length ≠ 1 →
      add_params md ps = md ++ lit ("- Parameters:\n") ++ (ps.map param_bullet).flatten) := by
  constructor
  · intro p hp
    subst hp
    simp [add_params]
  · intro hne
    match ps, hne with
    | [], _ => simp [add_params]
    | [p], hne => simp at hne
    | p :: q :: rest, _ =>
      show List.foldl _ (md ++ lit ("- Parameters:\n")) _ = _
      rw [foldl_append_flatten param_bullet, List.append_assoc]

/-- C5 witness: `c5_param_forms` applied to the one-element list `[pX]`. -/
theorem c5_param_forms_witness :
    add_params [] [pX] = lit ("- Parameter - Type (`x`): the x\n") :=
  (c5_param_forms [] [pX]).1 pX rfl

/-- C6, counterexample: a rendered empty examples list gets the singular
`- Example:` heading, although the claim requires `- Examples:` for every
length other than exactly one. -/
theorem c6_heading_counterexample :
    add_examples [] [] = lit ("- Example:\n") ∧
    List.isPrefixOf (lit ("- Examples:")) (add_examples [] []) = false := by decide

/-- C6, amended: the heading is `- Examples:` iff the list has more than one
element (`- Example:` for zero or one), and each example whose tab-expanded
text is not entirely newlines is emitted as a fenced block with every tab
replaced by four spaces and all trailing newlines stripped before the single
closing fence. -/
theorem c6_example_blocks (md : Str) (es : List Str)
    (h : ∀ e ∈ es, stripTrailingNewlines (replaceTabs e) ≠ []) :
    add_examples md es = md ++ examplesHeading es ++ (es.map exampleBlock).flatten := by
  unfold add_examples
  rw [foldl_example_step es h, List.append_assoc]

/-- C6 witness: `c6_example_blocks` on an example containing a tab and three
trailing newlines. -/
theorem c6_example_blocks_witness :
    add_examples [] [lit ("foo\tbar\n\n\n")]
      = lit ("- Example:\n```kt\nfoo    bar\n```\n") := by
  rw [c6_example_blocks [] [lit ("foo\tbar\n\n\n")] (by decide)]
  decide

/-- C7: every rendered class fragment carries, between the header block and
the fixed `Fully Documented.` line, exactly the notice selected by
`importNotice`: the import template embedding the path twice when an import
path is present, the fixed no-import sentence otherwise — never both. -/
theorem c7_import_notice (cls : Class) :
    render_class cls = none ∨
    ∃ tail, render_class cls
      = some (classHeader cls ++ importNotice cls.import_path
          ++ lit ("Fully Documented.\n\n") ++ tail) := by
  unfold render_class
  have h := render_sections_append
    (classHeader cls ++ importNotice cls.import_path ++ lit ("Fully Documented.\n\n")) [] cls
  rw [List.append_nil] at h
  rw [h]
  cases render_sections [] cls with
  | none => exact Or.inl rfl
  | some t => exact Or.inr ⟨t, rfl⟩

/-- C8: when every class value renders, the classes document is exactly the
fragments intercalated with one blank line (`"\n\n"`), with no separator
after the last fragment. -/
theorem c8_blank_line_separators (j : Json) (cs : List (Str × Json)) (frags : List Str)
    (hobj : Json.index j (lit ("classes")) = Json.obj cs)
    (hfrags : mapParse (cs.map Prod.snd) = some frags) :
    parse_classes j = some (List.intercalate (lit ("\n\n")) frags) := by
  unfold parse_classes
  rw [hobj]
  exact loop_intercalate _ _ hfrags

/-- C8 witness: `c8_blank_line_separators` on a document with two minimal
classes. -/
theorem c8_blank_line_separators_witness :
    parse_classes jTwo = some (List.intercalate (lit ("\n\n")) [fragA, fragB]) :=
  c8_blank_line_separators jTwo [(lit ("A"), clsAJson), (lit ("B"), clsBJson)]
    [fragA, fragB] rfl (by decide)

set_option maxRecDepth 20000 in
/-- C9: the class with exactly one documented static member, one documented
assignable instance member and no constructors/methods/static methods
renders to a fragment with exactly one `## Static Members` and one
`## Members` section, exactly two level-3 entries, and none of the
`## Constructors` / `## Methods` / `## Static Methods` headings. -/
theorem c9_member_sections_roundtrip :
    render_class cls9 = some frag9 ∧
    countOccs (lit ("## Static Members")) frag9 = 1 ∧
    countOccs (lit ("## Members")) frag9 = 1 ∧
    countOccs (lit ("### ")) frag9 = 2 ∧
    countOccs (lit ("## Constructors")) frag9 = 0 ∧
    countOccs (lit ("## Methods")) frag9 = 0 ∧
    countOccs (lit ("## Static Methods")) frag9 = 0 := by decide

/-- C10: for a member whose assignability flag is present, rendering
unconditionally reads the description, type name and examples; if any of
these optional fields is absent, `add_member` aborts the whole render with
a panic (`none`) instead of skipping the member or emitting partial
output. -/
theorem c10_member_fields_required (md class_name : Str) (ms : List Member) (m : Member)
    (b : Bool) (hm : m ∈ ms) (hass : m.assignable = some b)
    (hmiss : m.desc = none ∨ m.type_name = none ∨ m.examples = none) :
    add_member md class_name ms = none := by
  revert hm
  induction ms generalizing md with
  | nil => intro hm; simp at hm
  | cons m0 rest ih =>
    intro hm
    rcases List.mem_cons.mp hm with rfl | hmem
    · rcases hmiss with hd | ht | he
      · cases ht' : m.type_name <;> cases he' : m.examples <;>
          simp [add_member, hass, hd, ht', he']
      · cases hd' : m.desc <;> cases he' : m.examples <;>
          simp [add_member, hass, ht, hd', he']
      · cases hd' : m.desc <;> cases ht' : m.type_name <;>
          simp [add_member, hass, he, hd', ht']
    · cases hass0 : m0.assignable with
      | none =>
        simp only [add_member, hass0]
        exact ih md hmem
      | some b0 =>
        cases hd0 : m0.desc <;> cases ht0 : m0.type_name <;> cases he0 : m0.examples <;>
          simp only [add_member, hass0, hd0, ht0, he0]
        exact ih _ hmem

/-- C10 witness: `c10_member_fields_required` on a one-element member list
whose member has `assignable` set but no description. -/
theorem c10_member_fields_required_witness :
    add_member [] (lit ("X")) [mBad] = none :=
  c10_member_fields_required [] (lit ("X")) [mBad] mBad true (by simp) rfl (Or.inl rfl)

end ArucasJsonToMd
